import Mathlib

/-!
Verification of delta's builtin-preset value-resolution module (`src/preset.rs`).

The Rust module defines, for a command-line diff-formatting tool:
  * `PresetValueFunction<T>`: a boxed closure `(&cli::Opt, &Option<GitConfig>) -> T`
    producing one option's value from the already-resolved option snapshot and an
    optional git config source;
  * `BuiltinPreset<T> = HashMap<String, PresetValueFunction<T>>`;
  * the `builtin_preset!` macro, turning `(option_name, optional git-config key,
    fallback expression)` triples into `(name, value-function)` pairs with
    config-or-fallback semantics;
  * `make_builtin_presets`, a registry of two presets, "diff-highlight" and
    "diff-so-fancy";
  * the `GetValueFunctionFromBuiltinPreset` trait: a per-value-type capability whose
    default implementation returns `None`; only the `String` implementation performs
    a real lookup.

We embed these shallowly: `cli::Opt` is modelled by the two string fields that the
preset value functions actually read; `GitConfig` by its string-valued key lookup;
`HashMap` built via `.into_iter().collect()` by the underlying entry list, with
lookup returning the value of the last entry bearing the key (in Rust, later
inserts overwrite earlier ones).
-/

namespace Delta

/-- The resolved-option snapshot (`cli::Opt`), restricted to the fields that the
builtin preset value functions read: `opt.minus_style` and `opt.plus_style`. -/
structure Opt where
  minus_style : String
  plus_style : String
deriving Repr, DecidableEq

/-- An external git config source, modelled by its string-typed lookup
`git_config.get::<String>(key)`; absent keys yield `none`. -/
structure GitConfig where
  get : String → Option String

/-- `PresetValueFunction<String>`: `Box<dyn Fn(&cli::Opt, &Option<GitConfig>) -> String>`. -/
abbrev PresetValueFunction : Type := Opt → Option GitConfig → String

/-- A `HashMap<String, V>` built from a vector of pairs by `.into_iter().collect()`:
we keep the entry list; lookup takes the value of the last entry with the key,
matching Rust's overwrite-on-duplicate-insert semantics. -/
structure StringMap (V : Type) where
  entries : List (String × V)

/-- `HashMap::get`: the value of the last entry whose key matches. -/
def StringMap.get {V : Type} (m : StringMap V) (k : String) : Option V :=
  (m.entries.reverse.find? (fun p => p.1 == k)).map Prod.snd

/-- The key set of the map (as the list of inserted keys). -/
def StringMap.keys {V : Type} (m : StringMap V) : List String :=
  m.entries.map Prod.fst

/-- `.into_iter().collect()` from a vector of pairs into a `HashMap`. -/
def collect {V : Type} (l : List (String × V)) : StringMap V := ⟨l⟩

/-- `BuiltinPreset<String> = HashMap<String, PresetValueFunction<String>>`. -/
abbrev BuiltinPreset : Type := StringMap PresetValueFunction

/-- One `(option name, value function)` pair produced by the `builtin_preset!`
macro: if a git config source is supplied and a config key is declared, query the
source for that key; a present result is returned as-is, otherwise
(`unwrap_or_else`) the fallback expression is evaluated on the snapshot. -/
def builtin_preset_entry (option_name : String) (git_config_key : Option String)
    (value : Opt → String) : String × PresetValueFunction :=
  (option_name,
    fun opt git_config =>
      (match git_config, git_config_key with
        | some git_config, some git_config_key => git_config.get git_config_key
        | _, _ => none).getD (value opt))

/-- `_make_diff_highlight_preset(bold)`: the seven-entry option list shared by the
two builtin presets, with `bold` selecting the bold base fallbacks. -/
def _make_diff_highlight_preset (bold : Bool) : List (String × PresetValueFunction) :=
  [ builtin_preset_entry "minus-style" (some "color.diff.old")
      (fun _opt => if bold then "bold red" else "red"),
    builtin_preset_entry "minus-non-emph-style" (some "color.diff-highlight.oldNormal")
      (fun opt => opt.minus_style),
    builtin_preset_entry "minus-emph-style" (some "color.diff-highlight.oldHighlight")
      (fun opt => opt.minus_style ++ " reverse"),
    builtin_preset_entry "zero-style" none
      (fun _opt => "normal"),
    builtin_preset_entry "plus-style" (some "color.diff.new")
      (fun _opt => if bold then "bold green" else "green"),
    builtin_preset_entry "plus-non-emph-style" (some "color.diff-highlight.newNormal")
      (fun opt => opt.plus_style),
    builtin_preset_entry "plus-emph-style" (some "color.diff-highlight.newHighlight")
      (fun opt => opt.plus_style ++ " reverse") ]

/-- `make_diff_highlight_preset()`. -/
def make_diff_highlight_preset : List (String × PresetValueFunction) :=
  _make_diff_highlight_preset false

/-- `make_diff_so_fancy_preset()`: the bold variant of diff-highlight extended
(`Vec::extend`, i.e. appended) with six further entries. -/
def make_diff_so_fancy_preset : List (String × PresetValueFunction) :=
  _make_diff_highlight_preset true ++
  [ builtin_preset_entry "commit-style" none
      (fun _opt => "bold yellow"),
    builtin_preset_entry "commit-decoration-style" none
      (fun _opt => "none"),
    builtin_preset_entry "file-style" (some "color.diff.meta")
      (fun _opt => "11"),
    builtin_preset_entry "file-decoration-style" none
      (fun _opt => "bold yellow ul ol"),
    builtin_preset_entry "hunk-header-style" (some "color.diff.frag")
      (fun _opt => "bold syntax"),
    builtin_preset_entry "hunk-header-decoration-style" none
      (fun _opt => "magenta box") ]

/-- `make_builtin_presets()`: the two-level registry
`(preset name) -> (option name) -> (value function)`. -/
def make_builtin_presets : StringMap BuiltinPreset :=
  collect
    [ ("diff-highlight", collect make_diff_highlight_preset),
      ("diff-so-fancy", collect make_diff_so_fancy_preset) ]

/-- The value types for which the `GetValueFunctionFromBuiltinPreset` trait is
implemented: `String` plus the five default (always-`None`) implementations
`bool`, `i64`, `usize`, `f64`, `Option<String>`. -/
inductive OptionValueType
  | string
  | bool
  | i64
  | usize
  | f64
  | optString
deriving Repr, DecidableEq

/-- `GetValueFunctionFromBuiltinPreset::get_value_function_from_builtin_preset`,
dispatched on the implementing value type: the default implementation returns
`None`; only the `String` implementation looks up the option name in the preset. -/
def get_value_function_from_builtin_preset (t : OptionValueType)
    (option_name : String) (builtin_preset : BuiltinPreset) :
    Option PresetValueFunction :=
  match t with
  | .string => builtin_preset.get option_name
  | _ => none

/-- The resolver-facing composition: look the preset up in the registry, obtain the
(string-typed) value function for the option, and invoke it on the snapshot and
config source. -/
def preset_value (preset_name option_name : String) (opt : Opt)
    (git_config : Option GitConfig) : Option String :=
  (make_builtin_presets.get preset_name).bind fun preset =>
    (get_value_function_from_builtin_preset .string option_name preset).map fun f =>
      f opt git_config

end Delta

namespace Delta

/-! ## Helper lemmas -/

/-- A `collect`ed map has a value for a key exactly when some inserted entry bears it. -/
theorem StringMap.get_isSome {V : Type} (m : StringMap V) (k : String) :
    (m.get k).isSome ↔ k ∈ m.keys := by
  simp [StringMap.get, StringMap.keys, List.find?_isSome, List.mem_map]

/-- Last-insert-wins: when a key occurs among the later (`ext`) entries, collecting
`base ++ ext` gives that key the same value function as collecting `ext` alone. -/
theorem collect_append_get_right {V : Type} (base ext : List (String × V)) (k : String)
    (h : k ∈ (collect ext).keys) :
    (collect (base ++ ext)).get k = (collect ext).get k := by
  have hsome : ((collect ext).get k).isSome := (StringMap.get_isSome _ _).mpr h
  simp only [collect, StringMap.get, List.reverse_append, List.find?_append] at hsome ⊢
  cases hfind : (ext.reverse.find? fun p => p.1 == k) with
  | none =>
      rw [show ({ entries := ext } : StringMap V).entries.reverse = ext.reverse from rfl,
        hfind] at hsome
      simp at hsome
  | some v => rfl

/-! ## Claim theorems -/

/-- C1: every value function built by the `builtin_preset!` macro obeys the
config-or-fallback contract: when a config source is supplied, a config key is
declared, and the source has a value for the key, that value is returned and the
fallback is not evaluated (the result is the same for any other fallback
expression); when the source is missing, the key is undeclared, or the key is
absent from the source, the fallback evaluated on the snapshot is returned. All
branches return a value; no error arises. -/
theorem builtin_preset_config_or_fallback
    (option_name : String) (git_config_key : Option String)
    (value other_value : Opt → String) (opt : Opt) (git_config : Option GitConfig) :
    (∀ gc k v, git_config = some gc → git_config_key = some k → gc.get k = some v →
        (builtin_preset_entry option_name git_config_key value).2 opt git_config = v ∧
        (builtin_preset_entry option_name git_config_key other_value).2 opt git_config = v) ∧
    (git_config = none →
        (builtin_preset_entry option_name git_config_key value).2 opt git_config = value opt) ∧
    (git_config_key = none →
        (builtin_preset_entry option_name git_config_key value).2 opt git_config = value opt) ∧
    (∀ gc k, git_config = some gc → git_config_key = some k → gc.get k = none →
        (builtin_preset_entry option_name git_config_key value).2 opt git_config = value opt) := by
  refine ⟨?_, ?_, ?_, ?_⟩
  · rintro gc k v rfl rfl hv
    simp [builtin_preset_entry, hv]
  · rintro rfl
    cases git_config_key <;> simp [builtin_preset_entry]
  · rintro rfl
    cases git_config <;> simp [builtin_preset_entry]
  · rintro gc k rfl rfl hv
    simp [builtin_preset_entry, hv]

/-- Witness for C1: with a source holding `color.diff.old = "cfg"` the built value
function returns "cfg"; with no source it returns the fallback "red". -/
theorem builtin_preset_config_or_fallback_witness :
    (builtin_preset_entry "minus-style" (some "color.diff.old") (fun _ => "red")).2
        ⟨"ms", "ps"⟩
        (some ⟨fun k => if k = "color.diff.old" then some "cfg" else none⟩) = "cfg" ∧
    (builtin_preset_entry "minus-style" (some "color.diff.old") (fun _ => "red")).2
        ⟨"ms", "ps"⟩ none = "red" := by
  constructor
  · exact ((builtin_preset_config_or_fallback "minus-style" (some "color.diff.old")
      (fun _ => "red") (fun _ => "other") ⟨"ms", "ps"⟩
      (some ⟨fun k => if k = "color.diff.old" then some "cfg" else none⟩)).1
      _ _ _ rfl rfl rfl).1
  · exact (builtin_preset_config_or_fallback "minus-style" (some "color.diff.old")
      (fun _ => "red") (fun _ => "other") ⟨"ms", "ps"⟩ none).2.1 rfl

/-- C2: the registry holds exactly the presets "diff-highlight" and
"diff-so-fancy"; looking up either name yields its preset, any other name yields
`none`; construction is a total function (it never fails). -/
theorem make_builtin_presets_lookup (name : String) :
    ((make_builtin_presets.get name).isSome ↔
      name = "diff-highlight" ∨ name = "diff-so-fancy") ∧
    make_builtin_presets.get "diff-highlight" = some (collect make_diff_highlight_preset) ∧
    make_builtin_presets.get "diff-so-fancy" = some (collect make_diff_so_fancy_preset) := by
  refine ⟨?_, rfl, rfl⟩
  simp [make_builtin_presets, collect, StringMap.get, List.find?_isSome]
  constructor
  · rintro (h | h) <;> simp [h]
  · rintro (h | h) <;> simp [h]

/-- C3: with no config source, `minus-style` resolves to "red" under
"diff-highlight" and to "bold red" under "diff-so-fancy", for every snapshot. -/
theorem diff_highlight_minus_style_defaults (opt : Opt) :
    preset_value "diff-highlight" "minus-style" opt none = some "red" ∧
    preset_value "diff-so-fancy" "minus-style" opt none = some "bold red" :=
  ⟨rfl, rfl⟩

/-- C4: when the config source maps `color.diff.old` to "red bold", the
"diff-highlight" value for `minus-style` is "red bold", not the fallback "red",
for every snapshot. -/
theorem diff_highlight_minus_style_config_precedence (opt : Opt) (gc : GitConfig)
    (h : gc.get "color.diff.old" = some "red bold") :
    preset_value "diff-highlight" "minus-style" opt (some gc) = some "red bold" := by
  show some ((gc.get "color.diff.old").getD "red") = some "red bold"
  rw [h]
  rfl

/-- Witness for C4 at a concrete one-key config source. -/
theorem diff_highlight_minus_style_config_precedence_witness :
    preset_value "diff-highlight" "minus-style" ⟨"ms", "ps"⟩
      (some ⟨fun k => if k = "color.diff.old" then some "red bold" else none⟩) =
        some "red bold" :=
  diff_highlight_minus_style_config_precedence ⟨"ms", "ps"⟩
    ⟨fun k => if k = "color.diff.old" then some "red bold" else none⟩ rfl

/-- C5: if the snapshot's `minus-style` is "red bold", then under "diff-highlight"
`minus-emph-style` resolves to "red bold reverse" (snapshot value plus a reverse
modifier) whenever `color.diff-highlight.oldHighlight` is not supplied (no source,
or key absent), and to the config value verbatim when it is supplied; and
`minus-non-emph-style` resolves to the snapshot's `minus-style` unchanged when its
key `color.diff-highlight.oldNormal` is absent. -/
theorem diff_highlight_cross_option_dependency (opt : Opt) (git_config : Option GitConfig)
    (h : opt.minus_style = "red bold") :
    (git_config = none →
      preset_value "diff-highlight" "minus-emph-style" opt git_config =
        some "red bold reverse") ∧
    (∀ gc, git_config = some gc → gc.get "color.diff-highlight.oldHighlight" = none →
      preset_value "diff-highlight" "minus-emph-style" opt git_config =
        some "red bold reverse") ∧
    (∀ gc v, git_config = some gc → gc.get "color.diff-highlight.oldHighlight" = some v →
      preset_value "diff-highlight" "minus-emph-style" opt git_config = some v) ∧
    (git_config = none →
      preset_value "diff-highlight" "minus-non-emph-style" opt git_config =
        some "red bold") ∧
    (∀ gc, git_config = some gc → gc.get "color.diff-highlight.oldNormal" = none →
      preset_value "diff-highlight" "minus-non-emph-style" opt git_config =
        some "red bold") := by
  refine ⟨?_, ?_, ?_, ?_, ?_⟩
  · rintro rfl
    show some (opt.minus_style ++ " reverse") = some "red bold reverse"
    rw [h]
    rfl
  · rintro gc rfl hk
    show some ((gc.get "color.diff-highlight.oldHighlight").getD
      (opt.minus_style ++ " reverse")) = some "red bold reverse"
    rw [hk, h]
    rfl
  · rintro gc v rfl hk
    show some ((gc.get "color.diff-highlight.oldHighlight").getD
      (opt.minus_style ++ " reverse")) = some v
    rw [hk]
    rfl
  · rintro rfl
    show some opt.minus_style = some "red bold"
    rw [h]
  · rintro gc rfl hk
    show some ((gc.get "color.diff-highlight.oldNormal").getD opt.minus_style) =
      some "red bold"
    rw [hk, h]
    rfl

/-- Witness for C5 at a concrete snapshot and config sources. -/
theorem diff_highlight_cross_option_dependency_witness :
    preset_value "diff-highlight" "minus-emph-style" ⟨"red bold", "green"⟩ none =
      some "red bold reverse" ∧
    preset_value "diff-highlight" "minus-emph-style" ⟨"red bold", "green"⟩
      (some ⟨fun k =>
        if k = "color.diff-highlight.oldHighlight" then some "red bold 52" else none⟩) =
      some "red bold 52" ∧
    preset_value "diff-highlight" "minus-non-emph-style" ⟨"red bold", "green"⟩ none =
      some "red bold" := by
  refine ⟨?_, ?_, ?_⟩
  · exact (diff_highlight_cross_option_dependency ⟨"red bold", "green"⟩ none rfl).1 rfl
  · exact (diff_highlight_cross_option_dependency ⟨"red bold", "green"⟩
      (some ⟨fun k =>
        if k = "color.diff-highlight.oldHighlight" then some "red bold 52" else none⟩)
      rfl).2.2.1 _ _ rfl rfl
  · exact (diff_highlight_cross_option_dependency ⟨"red bold", "green"⟩ none rfl).2.2.2.1 rfl

/-- C6: for each of the five non-string value types (`bool`, `i64`, `usize`,
`f64`, `Option<String>`), the trait's default implementation returns `None` for
every option name and every preset, including names present in the preset. -/
theorem non_string_types_get_none (option_name : String) (preset : BuiltinPreset) :
    get_value_function_from_builtin_preset .bool option_name preset = none ∧
    get_value_function_from_builtin_preset .i64 option_name preset = none ∧
    get_value_function_from_builtin_preset .usize option_name preset = none ∧
    get_value_function_from_builtin_preset .f64 option_name preset = none ∧
    get_value_function_from_builtin_preset .optString option_name preset = none :=
  ⟨rfl, rfl, rfl, rfl, rfl⟩

/-- C7: the `String` implementation is exactly the preset's lookup, and its result
is present precisely when the option name is a key of the preset's mapping. -/
theorem string_get_value_function_is_lookup (option_name : String) (preset : BuiltinPreset) :
    get_value_function_from_builtin_preset .string option_name preset =
      preset.get option_name ∧
    ((get_value_function_from_builtin_preset .string option_name preset).isSome ↔
      option_name ∈ preset.keys) :=
  ⟨rfl, StringMap.get_isSome preset option_name⟩

end Delta

namespace Delta

/-- C8: the "diff-so-fancy" preset maps exactly the seven diff-highlight option
names (in their bold variant) plus the six extension names; and preset
construction has define-or-overwrite semantics: a name occurring in both the base
and the extension lists receives the extension's (later-added) value function. -/
theorem diff_so_fancy_key_set_and_overwrite :
    (∀ name : String,
      (((make_builtin_presets.get "diff-so-fancy").bind fun p => p.get name).isSome ↔
        name ∈ ["minus-style", "minus-non-emph-style", "minus-emph-style", "zero-style",
                "plus-style", "plus-non-emph-style", "plus-emph-style", "commit-style",
                "commit-decoration-style", "file-style", "file-decoration-style",
                "hunk-header-style", "hunk-header-decoration-style"])) ∧
    (∀ (base ext : List (String × PresetValueFunction)) (name : String),
      name ∈ (collect ext).keys →
      (collect (base ++ ext)).get name = (collect ext).get name) := by
  constructor
  · intro name
    have h1 : make_builtin_presets.get "diff-so-fancy" =
        some (collect make_diff_so_fancy_preset) := rfl
    rw [h1, Option.some_bind, StringMap.get_isSome]
    exact Iff.rfl
  · exact fun base ext name h => collect_append_get_right base ext name h

/-- Witness for C8: "commit-style" is among the thirteen keys, and on concrete
colliding base and extension lists the extension's entry wins. -/
theorem diff_so_fancy_key_set_and_overwrite_witness :
    ((((make_builtin_presets.get "diff-so-fancy").bind fun p => p.get "commit-style").isSome ↔
      "commit-style" ∈
        ["minus-style", "minus-non-emph-style", "minus-emph-style", "zero-style",
         "plus-style", "plus-non-emph-style", "plus-emph-style", "commit-style",
         "commit-decoration-style", "file-style", "file-decoration-style",
         "hunk-header-style", "hunk-header-decoration-style"]) ∧
    (collect ([(("o", fun _ _ => "base") : String × PresetValueFunction)] ++
        [(("o", fun _ _ => "ext") : String × PresetValueFunction)])).get "o" =
      (collect [(("o", fun _ _ => "ext") : String × PresetValueFunction)]).get "o") := by
  constructor
  · exact diff_so_fancy_key_set_and_overwrite.1 "commit-style"
  · exact diff_so_fancy_key_set_and_overwrite.2
      [(("o", fun _ _ => "base") : String × PresetValueFunction)]
      [(("o", fun _ _ => "ext") : String × PresetValueFunction)] "o"
      (by simp [collect, StringMap.keys])

/-- C9: builtin-preset value resolution is deterministic in its two arguments:
two invocations for the same preset and option with equal snapshots and equal
config sources yield identical results. (The embedded value functions are pure,
mirroring the Rust closures, which capture no mutable state.) -/
theorem value_function_idempotent (preset_name option_name : String)
    (opt opt2 : Opt) (git_config git_config2 : Option GitConfig)
    (hopt : opt = opt2) (hgc : git_config = git_config2) :
    preset_value preset_name option_name opt git_config =
      preset_value preset_name option_name opt2 git_config2 := by
  rw [hopt, hgc]

/-- Witness for C9 at a concrete preset, option, snapshot, and config source. -/
theorem value_function_idempotent_witness :
    preset_value "diff-highlight" "minus-style" ⟨"a", "b"⟩ none =
      preset_value "diff-highlight" "minus-style" ⟨"a", "b"⟩ none :=
  value_function_idempotent "diff-highlight" "minus-style"
    ⟨"a", "b"⟩ ⟨"a", "b"⟩ none none rfl rfl

/-- C10: the six "diff-so-fancy" extension options have exactly these fallbacks and
config keys: commit-style "bold yellow" (no key), commit-decoration-style "none"
(no key), file-style "11" (key `color.diff.meta`), file-decoration-style
"bold yellow ul ol" (no key), hunk-header-style "bold syntax" (key
`color.diff.frag`), hunk-header-decoration-style "magenta box" (no key); the
keyless options never consult the config source. -/
theorem diff_so_fancy_extension_options (opt : Opt) (gc : GitConfig) :
    (∀ git_config, preset_value "diff-so-fancy" "commit-style" opt git_config =
      some "bold yellow") ∧
    (∀ git_config, preset_value "diff-so-fancy" "commit-decoration-style" opt git_config =
      some "none") ∧
    preset_value "diff-so-fancy" "file-style" opt none = some "11" ∧
    preset_value "diff-so-fancy" "file-style" opt (some gc) =
      some ((gc.get "color.diff.meta").getD "11") ∧
    (∀ git_config, preset_value "diff-so-fancy" "file-decoration-style" opt git_config =
      some "bold yellow ul ol") ∧
    preset_value "diff-so-fancy" "hunk-header-style" opt none = some "bold syntax" ∧
    preset_value "diff-so-fancy" "hunk-header-style" opt (some gc) =
      some ((gc.get "color.diff.frag").getD "bold syntax") ∧
    (∀ git_config, preset_value "diff-so-fancy" "hunk-header-decoration-style" opt git_config =
      some "magenta box") := by
  refine ⟨?_, ?_, rfl, rfl, ?_, rfl, rfl, ?_⟩ <;>
    intro git_config <;> cases git_config <;> rfl

end Delta
